import Mathlib

/-!
A shallow embedding of `src/main.rs` of the `psf2verilog` repository: a
converter from PC Screen Font (PSF) files, generations one and two, to a
Verilog character-ROM lookup table.

Conventions of the embedding:
* Bytes and 16-bit units are `Nat` values; byte streams are `List Nat`.
* The seekable input file is a `List Nat` together with an explicit
  position that the parser threads through its reads and seeks.
* Rust `u32` arithmetic that can overflow is taken modulo `2 ^ 32`
  (release-profile wrapping semantics); `usize` products that stay far
  below `2 ^ 64` on every reachable input are kept as plain `Nat`.
* Fallible Rust code is modelled with `Option`/`Except`; a Rust panic
  (`unwrap` on a failed decode, an out-of-bounds slice, division by
  zero) is modelled as an `Except.error` of `PanicKind` that aborts the
  whole run, mirroring the fact that a panic never returns a value.
-/

/-- The decode of a list of UTF-16 code units into Unicode scalar values,
modelling Rust's `decode_utf16(...).map(Result::unwrap)`: any unpaired
surrogate makes the whole decode fail (`none`), which in the source is an
`unwrap` panic at the first bad unit. -/
def decodeUtf16 : List Nat → Option (List Nat)
  | [] => some []
  | u :: rest =>
    if u < 0xD800 ∨ 0xDFFF < u then
      (decodeUtf16 rest).map (fun cs => u :: cs)
    else if u ≤ 0xDBFF then
      match rest with
      | u2 :: rest2 =>
        if 0xDC00 ≤ u2 ∧ u2 ≤ 0xDFFF then
          (decodeUtf16 rest2).map
            (fun cs => (0x10000 + (u - 0xD800) * 0x400 + (u2 - 0xDC00)) :: cs)
        else none
      | [] => none
    else none

/-- A UTF-8 continuation byte, `0x80 ..= 0xBF`. -/
def utf8Cont (b : Nat) : Prop := 0x80 ≤ b ∧ b ≤ 0xBF

instance (b : Nat) : Decidable (utf8Cont b) := by unfold utf8Cont; infer_instance

/-- The decode of a UTF-8 byte list into Unicode scalar values, modelling
Rust's `std::str::from_utf8(..).unwrap().chars()`: full standard UTF-8
validation (overlong forms, surrogates and values above `0x10FFFF`
rejected); any invalid sequence makes the whole decode fail (`none`),
which in the source is an `unwrap` panic. -/
def decodeUtf8 : List Nat → Option (List Nat)
  | [] => some []
  | b :: rest =>
    if b ≤ 0x7F then
      (decodeUtf8 rest).map (fun cs => b :: cs)
    else if 0xC2 ≤ b ∧ b ≤ 0xDF then
      match rest with
      | c1 :: r =>
        if utf8Cont c1 then
          (decodeUtf8 r).map (fun cs => ((b - 0xC0) * 0x40 + (c1 - 0x80)) :: cs)
        else none
      | _ => none
    else if 0xE0 ≤ b ∧ b ≤ 0xEF then
      match rest with
      | c1 :: c2 :: r =>
        if ((b = 0xE0 ∧ 0xA0 ≤ c1 ∧ c1 ≤ 0xBF) ∨
            (b = 0xED ∧ 0x80 ≤ c1 ∧ c1 ≤ 0x9F) ∨
            (b ≠ 0xE0 ∧ b ≠ 0xED ∧ utf8Cont c1)) ∧ utf8Cont c2 then
          (decodeUtf8 r).map
            (fun cs => ((b - 0xE0) * 0x1000 + (c1 - 0x80) * 0x40 + (c2 - 0x80)) :: cs)
        else none
      | _ => none
    else if 0xF0 ≤ b ∧ b ≤ 0xF4 then
      match rest with
      | c1 :: c2 :: c3 :: r =>
        if ((b = 0xF0 ∧ 0x90 ≤ c1 ∧ c1 ≤ 0xBF) ∨
            (b = 0xF4 ∧ 0x80 ≤ c1 ∧ c1 ≤ 0x8F) ∨
            (b ≠ 0xF0 ∧ b ≠ 0xF4 ∧ utf8Cont c1)) ∧ utf8Cont c2 ∧ utf8Cont c3 then
          (decodeUtf8 r).map
            (fun cs => ((b - 0xF0) * 0x40000 + (c1 - 0x80) * 0x1000 +
                        (c2 - 0x80) * 0x40 + (c3 - 0x80)) :: cs)
        else none
      | _ => none
    else none

/-- `enum Version { PSF1, PSF2 }` from the source. -/
inductive Version where
  | PSF1 : Version
  | PSF2 : Version
deriving DecidableEq

/-- The three ways the source can panic while parsing: the out-of-bounds
two-byte slice `table[i..=i + 1]` in the generation-one table loop, and
the two `unwrap` calls on text decoding. A panic aborts the process. -/
inductive PanicKind where
  | sliceOutOfBounds : PanicKind
  | utf16Unwrap : PanicKind
  | utf8Unwrap : PanicKind
deriving DecidableEq

/-- `struct TableEntry { represented: Vec<char>, sequences: Vec<char> }`;
characters are represented by their Unicode scalar values. -/
structure TableEntry where
  represented : List Nat
  sequences : List Nat
deriving DecidableEq

/-- `TableEntry::default()`: both lists empty. -/
def TableEntry.init : TableEntry := ⟨[], []⟩

/-- The generation-one scan of `PSF::parse_table`, two bytes at a time as
little-endian `u16` units. Arguments: remaining bytes, pending code
units, the `sequence_started` flag, the current entry, the completed
entries. A list with exactly one byte left models the out-of-bounds
slice `table[i..=i + 1]` at the final loop iteration. `0xFFFF` is the
entry separator, `0xFFFE` the sequence-start marker. -/
def psf1Loop : List Nat → List Nat → Bool → TableEntry → List TableEntry →
    Except PanicKind (List TableEntry)
  | [], _, _, _, entries => .ok entries
  | [_], _, _, _, _ => .error .sliceOutOfBounds
  | b0 :: b1 :: rest, pending, seqStarted, cur, entries =>
    let u := b0 + 256 * b1
    if u = 0xFFFF ∨ u = 0xFFFE then
      match decodeUtf16 pending with
      | none => .error .utf16Unwrap
      | some chars =>
        let cur2 : TableEntry :=
          if seqStarted then { cur with sequences := cur.sequences ++ chars }
          else { cur with represented := chars }
        if u = 0xFFFF then
          psf1Loop rest [] false TableEntry.init (entries ++ [cur2])
        else
          psf1Loop rest [] true cur2 entries
    else
      psf1Loop rest (pending ++ [u]) seqStarted cur entries

/-- The generation-two scan of `PSF::parse_table`, one byte at a time.
`0xFF` is the entry separator, `0xFE` the sequence-start marker. -/
def psf2Loop : List Nat → List Nat → Bool → TableEntry → List TableEntry →
    Except PanicKind (List TableEntry)
  | [], _, _, _, entries => .ok entries
  | b :: rest, pending, seqStarted, cur, entries =>
    if b = 0xFF ∨ b = 0xFE then
      match decodeUtf8 pending with
      | none => .error .utf8Unwrap
      | some chars =>
        let cur2 : TableEntry :=
          if seqStarted then { cur with sequences := cur.sequences ++ chars }
          else { cur with represented := chars }
        if b = 0xFF then
          psf2Loop rest [] false TableEntry.init (entries ++ [cur2])
        else
          psf2Loop rest [] true cur2 entries
    else
      psf2Loop rest (pending ++ [b]) seqStarted cur entries

/-- `PSF::parse_table(table, version)`. A `.error` value models a panic
escaping the function (the source has no error return: it either
returns the entries or aborts the process). -/
def parse_table (table : List Nat) (version : Version) :
    Except PanicKind (List TableEntry) :=
  match version with
  | .PSF1 => psf1Loop table [] false TableEntry.init []
  | .PSF2 => psf2Loop table [] false TableEntry.init []

/-- `enum ParseError { IoError(..), NotPSF, UnsupportedVersion }` from the
source (the wrapped `std::io::Error` payload is dropped). -/
inductive ParseError where
  | IoError : ParseError
  | NotPSF : ParseError
  | UnsupportedVersion : ParseError
deriving DecidableEq

/-- `struct PSF` from the source; `charsize`, `height`, `width` are `u32`
fields, the bitmap is the raw byte list, the table is present exactly
when the source stores `Some(..)`. -/
structure PSF where
  version : Version
  charsize : Nat
  height : Nat
  width : Nat
  bitmap : List Nat
  table : Option (List TableEntry)
deriving DecidableEq

instance {ε α : Type} [DecidableEq ε] [DecidableEq α] :
    DecidableEq (Except ε α) := fun a b =>
  match a, b with
  | .error e, .error f =>
    if h : e = f then .isTrue (by rw [h])
    else .isFalse (fun hh => h (Except.error.inj hh))
  | .ok x, .ok y =>
    if h : x = y then .isTrue (by rw [h])
    else .isFalse (fun hh => h (Except.ok.inj hh))
  | .error _, .ok _ => .isFalse (fun hh => Except.noConfusion hh)
  | .ok _, .error _ => .isFalse (fun hh => Except.noConfusion hh)

/-- One run of `PSF::try_from(File)`: the returned `Result`, the final
stream position (how much of the file was consumed), and whether the
non-fatal `eprintln!` warning about an undersized generation-two header
was emitted. -/
structure ParseRun where
  result : Except ParseError PSF
  pos : Nat
  warned : Bool
deriving DecidableEq

/-- The little-endian `u32` read `u32::from_le_bytes` at offset `pos` of
the stream (missing bytes read as 0; every use in `try_from` is guarded
by a length check that matches the source's `read_exact`). -/
def u32leAt (data : List Nat) (pos : Nat) : Nat :=
  data.getD pos 0 + 256 * data.getD (pos + 1) 0 +
    65536 * data.getD (pos + 2) 0 + 16777216 * data.getD (pos + 3) 0

/-- The generation-one glyph count: 512 when mode bit `0x01`
(`PSF1_MODE512`) is set, else 256. -/
def psf1Glyphs (mode : Nat) : Nat :=
  if mode &&& 0x01 ≠ 0 then 512 else 256

/-- The stream position of the generation-two bitmap: the 32 header
bytes already read, plus the `header_size - 32` seek when
`header_size ≥ 32` (no seek otherwise, matching the warning path). -/
def psf2SkipPos (header_size : Nat) : Nat :=
  if 32 ≤ header_size then 32 + (header_size - 32) else 32

/-- The generation-one branch of `PSF::try_from`, entered after the
4-byte magic probe succeeded: `mode` is byte 2, `height` byte 3, the
glyph count is 512 when mode bit `0x01` is set (else 256), `charsize`
equals `height`, the bitmap follows the header directly, and the rest
of the stream is parsed as the mapping table exactly when mode bit
`0x02` (`PSF1_MODEHASTAB`) is set. A failed `read_exact` consumes the
remainder of the stream and yields `IoError`. -/
def parsePSF1 (data : List Nat) : Except PanicKind ParseRun :=
  let mode := data.getD 2 0
  let height := data.getD 3 0
  let length := psf1Glyphs mode
  let charsize := height
  if charsize * length = 0 ∨ 4 + charsize * length ≤ data.length then
    let bitmap := (data.drop 4).take (charsize * length)
    let pos := 4 + charsize * length
    if mode &&& 0x02 ≠ 0 then
      match parse_table (data.drop pos) .PSF1 with
      | .error k => .error k
      | .ok entries =>
        .ok ⟨.ok ⟨.PSF1, charsize, height, 8, bitmap, some entries⟩,
             max data.length pos, false⟩
    else
      .ok ⟨.ok ⟨.PSF1, charsize, height, 8, bitmap, none⟩, pos, false⟩
  else
    .ok ⟨.error .IoError, data.length, false⟩

/-- The generation-two branch of `PSF::try_from`, entered after the
4-byte magic matched: seven little-endian `u32` header fields at
offsets 4..32; if `header_size < 32` a warning is emitted and the
position is left unchanged, otherwise the parser seeks forward
`header_size - 32` bytes; the bitmap is `charsize * length` bytes
(a `u32` product, wrapping modulo `2 ^ 32`); when flag `0x01`
(`PSF2_HASUNICODETABLE`) is set the rest of the stream is parsed as
the mapping table; only after all of that is `header_version`
compared against `PSF2_MAXVERSION = 0`. -/
def parsePSF2 (data : List Nat) : Except PanicKind ParseRun :=
  if 32 ≤ data.length then
    let header_version := u32leAt data 4
    let header_size := u32leAt data 8
    let flags := u32leAt data 12
    let length := u32leAt data 16
    let charsize := u32leAt data 20
    let height := u32leAt data 24
    let width := u32leAt data 28
    let warned := decide (header_size < 32)
    let pos1 := psf2SkipPos header_size
    let bn := charsize * length % 2 ^ 32
    if bn = 0 ∨ pos1 + bn ≤ data.length then
      let bitmap := (data.drop pos1).take bn
      let pos2 := pos1 + bn
      if flags &&& 0x01 ≠ 0 then
        match parse_table (data.drop pos2) .PSF2 with
        | .error k => .error k
        | .ok entries =>
          if 0 < header_version then
            .ok ⟨.error .UnsupportedVersion, max data.length pos2, warned⟩
          else
            .ok ⟨.ok ⟨.PSF2, charsize, height, width, bitmap, some entries⟩,
                 max data.length pos2, warned⟩
      else
        if 0 < header_version then
          .ok ⟨.error .UnsupportedVersion, pos2, warned⟩
        else
          .ok ⟨.ok ⟨.PSF2, charsize, height, width, bitmap, none⟩, pos2, warned⟩
    else
      .ok ⟨.error .IoError, data.length, warned⟩
  else
    .ok ⟨.error .IoError, data.length, false⟩

/-- `PSF::try_from(File)`: read a 4-byte magic probe, dispatch on the
generation-one magic `[0x36, 0x04]` (first two bytes) or the
generation-two magic `[0x72, 0xb5, 0x4a, 0x86]` (all four), else fail
with `NotPSF`. A `.error` value of the outer `Except` models a panic
escaping `parse_table`. -/
def try_from (data : List Nat) : Except PanicKind ParseRun :=
  if 4 ≤ data.length then
    if data.take 2 = [0x36, 0x04] then parsePSF1 data
    else if data.take 4 = [0x72, 0xb5, 0x4a, 0x86] then parsePSF2 data
    else .ok ⟨.error .NotPSF, 4, false⟩
  else
    .ok ⟨.error .IoError, data.length, false⟩

/-- Models `(length as f64).log2().ceil() as u8` from `PSF::into_verilog`.
For `1 ≤ length < 2 ^ 32` the `f64` computation is exact and equals
`Nat.clog 2 length` (the ceiling of the base-2 logarithm): `length` is
exactly representable in `f64`, `log2` is faithfully rounded and the
distance from `log2 length` to the nearest integer exceeds any rounding
error, and the result (at most 32) fits `u8` without truncation. For
`length = 0` the source computes `ceil(log2(0.0)) = -inf`, and Rust's
saturating float-to-integer cast turns `-inf` into `0_u8`. -/
def clog2Fuel : Nat → Nat → Nat
  | 0, _ => 0
  | fuel + 1, n => if n ≤ 1 then 0 else clog2Fuel fuel ((n + 1) / 2) + 1

def input_width (length : Nat) : Nat :=
  if length = 0 then 0 else clog2Fuel length length

theorem clog2Fuel_eq_clog : ∀ fuel n, n ≤ fuel → clog2Fuel fuel n = Nat.clog 2 n := by
  intro fuel
  induction fuel with
  | zero =>
    intro n h
    have : n = 0 := by omega
    subst this
    simp [clog2Fuel]
  | succ f ih =>
    intro n h
    by_cases h1 : n ≤ 1
    · have : n = 0 ∨ n = 1 := by omega
      rcases this with h0 | h0 <;> subst h0 <;> simp [clog2Fuel]
    · have hrec : clog2Fuel (f + 1) n = clog2Fuel f ((n + 1) / 2) + 1 := by
        simp [clog2Fuel, h1]
      rw [hrec, ih ((n + 1) / 2) (by omega)]
      conv_rhs => rw [Nat.clog]
      rw [dif_pos (⟨by omega, by omega⟩ : 1 < 2 ∧ 1 < n)]
      norm_num

/-- `input_width` agrees with the ceiling base-2 logarithm on every
nonzero glyph count. -/
theorem input_width_eq_clog (n : Nat) (h : n ≠ 0) : input_width n = Nat.clog 2 n := by
  unfold input_width
  rw [if_neg h, clog2Fuel_eq_clog n n le_rfl]

/-- An apostrophe (the Verilog width/base separator), built from its
code point. -/
def apostrophe : String := String.mk [Char.ofNat 39]

/-- Rust's `format!("{:0>2X}", byte)`: uppercase hexadecimal, left-padded
with zeros to at least two digits. -/
def hexByte (n : Nat) : String :=
  let ds := (Nat.toDigits 16 n).map Char.toUpper
  String.mk (List.replicate (2 - ds.length) (Char.ofNat 48) ++ ds)

/-- Rust's `format!("{:0>w$b}", n)`: binary digits of `n`, left-padded
with zeros to at least `w` digits. -/
def binLit (w n : Nat) : String :=
  let ds := Nat.toDigits 2 n
  String.mk (List.replicate (w - ds.length) (Char.ofNat 48) ++ ds)

/-- The module-declaration line printed by `into_verilog`. The two port
bounds are `input_width - 1` (a `u8` subtraction) and `output_width - 1`
(a `u32` subtraction); both wrap modulo their type's width when the
width is zero (release-profile wrapping semantics of Rust subtraction
overflow). -/
def moduleLine (iw ow : Nat) : String :=
  "module charactermap ( input wire clk, input wire [" ++
    toString ((iw + 255) % 256) ++
    ":0] character, output reg [" ++
    toString ((ow + (2 ^ 32 - 1)) % 2 ^ 32) ++
    ":0] characterraster );"

/-- One `case` arm printed by `into_verilog` for glyph index `i`: the
`input_width`-bit binary literal of `i`, then the glyph's `charsize`
raw bytes as big-endian uppercase hexadecimal. Indexing stays inside
the bitmap for every reachable call, so `getD`'s default is inert. -/
def caseLine (iw ow charsize : Nat) (bitmap : List Nat) (i : Nat) : String :=
  "    " ++ toString iw ++ apostrophe ++ "b" ++ binLit iw i ++
    " : characterraster = " ++ toString ow ++ apostrophe ++ "h" ++
    String.join ((List.range charsize).map
      (fun j => hexByte (bitmap.getD (i * charsize + j) 0))) ++ ";"

/-- The lines `into_verilog` prints when it does not panic: the module
declaration, the `always` opener, one case arm per glyph index in
ascending order, the default arm and the two closing lines. The byte
count is taken `% 2 ^ 32` for the `as u32` cast of `bitmap.len()`, and
the glyph count is the truncating integer division of the source. -/
def verilogLines (psf : PSF) : List String :=
  let length := psf.bitmap.length % 2 ^ 32 / psf.charsize
  let iw := input_width length
  let ow := psf.charsize * 8 % 2 ^ 32
  moduleLine iw ow ::
    "always @(posedge clk) begin case (character)" ::
    ((List.range length).map (caseLine iw ow psf.charsize psf.bitmap) ++
      ["    default : characterraster = 0;", "endcase end", "endmodule"])

/-- `PSF::into_verilog`, as the list of lines it prints to standard
output. `none` models the division-by-zero panic of
`self.bitmap.len() as u32 / self.charsize` when `charsize = 0` (Rust
division by zero panics in every build profile). -/
def into_verilog (psf : PSF) : Option (List String) :=
  if psf.charsize = 0 then none else some (verilogLines psf)

theorem psf1Loop_odd : ∀ (n : Nat) (l pending : List Nat) (s : Bool) (cur : TableEntry)
    (acc : List TableEntry), l.length = n → n % 2 = 1 →
    ∃ k, psf1Loop l pending s cur acc = .error k := by
  intro n
  induction n using Nat.strong_induction_on with
  | _ n ih =>
    intro l pending s cur acc hl hodd
    obtain _ | ⟨b0, _ | ⟨b1, rest⟩⟩ := l
    · rw [List.length_nil] at hl; omega
    · exact ⟨.sliceOutOfBounds, rfl⟩
    · simp only [List.length_cons] at hl
      by_cases hm : b0 + 256 * b1 = 0xFFFF ∨ b0 + 256 * b1 = 0xFFFE
      · cases hdec : decodeUtf16 pending with
        | none => exact ⟨.utf16Unwrap, by simp [psf1Loop, hm, hdec]⟩
        | some chars =>
          by_cases hsep : b0 + 256 * b1 = 0xFFFF
          · obtain ⟨k, hk⟩ := ih (n - 2) (by omega) rest [] false TableEntry.init
              (acc ++ [if s then { cur with sequences := cur.sequences ++ chars }
                       else { cur with represented := chars }]) (by omega) (by omega)
            exact ⟨k, by simp only [psf1Loop, hm, hdec, hsep]; simpa using hk⟩
          · have hm2 : b0 + 256 * b1 = 0xFFFE := by tauto
            obtain ⟨k, hk⟩ := ih (n - 2) (by omega) rest [] true
              (if s then { cur with sequences := cur.sequences ++ chars }
               else { cur with represented := chars }) acc (by omega) (by omega)
            exact ⟨k, by simp only [psf1Loop, hm, hdec, hsep, hm2]; simpa using hk⟩
      · obtain ⟨k, hk⟩ := ih (n - 2) (by omega) rest (pending ++ [b0 + 256 * b1]) s cur acc
          (by omega) (by omega)
        exact ⟨k, by simp only [psf1Loop]; rw [if_neg hm]; exact hk⟩

theorem psf2Loop_append (buf rest : List Nat) (s : Bool) (cur : TableEntry)
    (acc : List TableEntry) (hb : ∀ b ∈ buf, ¬(b = 0xFF ∨ b = 0xFE)) :
    ∀ pending, psf2Loop (buf ++ rest) pending s cur acc =
      psf2Loop rest (pending ++ buf) s cur acc := by
  induction buf with
  | nil => intro pending; simp
  | cons b bs ih =>
    intro pending
    have hb0 : ¬(b = 0xFF ∨ b = 0xFE) := hb b (by simp)
    have hstep : psf2Loop ((b :: bs) ++ rest) pending s cur acc =
        psf2Loop (bs ++ rest) (pending ++ [b]) s cur acc := by
      simp [psf2Loop, hb0]
    rw [hstep, ih (fun x hx => hb x (by simp [hx])) (pending ++ [b])]
    simp

theorem take_drop_len (data : List Nat) (p n : Nat) (h : n = 0 ∨ p + n ≤ data.length) :
    ((data.drop p).take n).length = n := by
  rcases h with h0 | hle
  · simp [h0]
  · simp only [List.length_take, List.length_drop]
    omega

theorem try_from_psf2 (data : List Nat)
    (hmagic : data.take 4 = [0x72, 0xb5, 0x4a, 0x86]) :
    try_from data = parsePSF2 data := by
  have hlen4 : 4 ≤ data.length := by
    have := congrArg List.length hmagic
    simp only [List.length_take, List.length_cons, List.length_nil] at this
    omega
  have h2 : data.take 2 = [0x72, 0xb5] := by
    have ht : data.take 2 = (data.take 4).take 2 := by
      simp [List.take_take]
    rw [ht, hmagic]
    rfl
  simp [try_from, hlen4, hmagic, h2]

theorem parsePSF1_ok (data : List Nat) (run : ParseRun) (psf : PSF)
    (h : parsePSF1 data = .ok run) (hr : run.result = .ok psf) :
    psf.version = .PSF1 ∧ psf.charsize ∣ psf.bitmap.length ∧
      (psf.table.isSome ↔ data.getD 2 0 &&& 0x02 ≠ 0) := by
  simp only [parsePSF1] at h
  split at h
  · rename_i hlen
    split at h
    · rename_i htab
      split at h
      · exact absurd h (by simp)
      · rename_i entries hpt
        cases h
        cases hr
        refine ⟨rfl, ?_, iff_of_true rfl htab⟩
        show data.getD 3 0 ∣ ((data.drop 4).take _).length
        rw [take_drop_len _ _ _ hlen]
        exact dvd_mul_right _ _
    · rename_i htab
      cases h
      cases hr
      refine ⟨rfl, ?_, iff_of_false (by simp) htab⟩
      show data.getD 3 0 ∣ ((data.drop 4).take _).length
      rw [take_drop_len _ _ _ hlen]
      exact dvd_mul_right _ _
  · rename_i hlen
    cases h
    exact absurd hr (by simp)

theorem parsePSF2_ok (data : List Nat) (run : ParseRun) (psf : PSF)
    (h : parsePSF2 data = .ok run) (hr : run.result = .ok psf) :
    psf.version = .PSF2 ∧ psf.charsize = u32leAt data 20 ∧
      psf.bitmap = (data.drop (psf2SkipPos (u32leAt data 8))).take
        (u32leAt data 20 * u32leAt data 16 % 2 ^ 32) ∧
      psf.bitmap.length = u32leAt data 20 * u32leAt data 16 % 2 ^ 32 := by
  simp only [parsePSF2] at h
  split at h
  · split at h
    · rename_i hfits
      split at h
      · split at h
        · exact absurd h (by simp)
        · rename_i entries hpt
          split at h
          · cases h
            exact absurd hr (by simp)
          · cases h
            cases hr
            exact ⟨rfl, rfl, rfl, take_drop_len _ _ _ hfits⟩
      · split at h
        · cases h
          exact absurd hr (by simp)
        · cases h
          cases hr
          exact ⟨rfl, rfl, rfl, take_drop_len _ _ _ hfits⟩
    · cases h
      exact absurd hr (by simp)
  · cases h
    exact absurd hr (by simp)

theorem parsePSF2_run (data : List Nat) (run : ParseRun)
    (h : parsePSF2 data = .ok run) (h32 : 32 ≤ data.length) :
    run.warned = decide (u32leAt data 8 < 32) ∧
      (0 < u32leAt data 4 → run.result = .error .IoError ∨
        (run.result = .error .UnsupportedVersion ∧
         psf2SkipPos (u32leAt data 8) +
           u32leAt data 20 * u32leAt data 16 % 2 ^ 32 ≤ run.pos ∧
         (u32leAt data 12 &&& 0x01 ≠ 0 → data.length ≤ run.pos))) := by
  simp only [parsePSF2] at h
  split at h
  · split at h
    · rename_i hfits
      split at h
      · rename_i hflag
        split at h
        · exact absurd h (by simp)
        · rename_i entries hpt
          split at h
          · rename_i hver
            cases h
            exact ⟨rfl, fun _ => Or.inr ⟨rfl, Nat.le_max_right _ _,
              fun _ => Nat.le_max_left _ _⟩⟩
          · rename_i hver
            cases h
            exact ⟨rfl, fun hv => absurd hv hver⟩
      · rename_i hflag
        split at h
        · rename_i hver
          cases h
          exact ⟨rfl, fun _ => Or.inr ⟨rfl, Nat.le_refl _, fun hf => absurd hf hflag⟩⟩
        · rename_i hver
          cases h
          exact ⟨rfl, fun hv => absurd hv hver⟩
    · cases h
      exact ⟨rfl, fun _ => Or.inl rfl⟩
  · rename_i hh
    exact absurd h32 hh

/-- C1: for every parsed font whose glyph byte size is nonzero (the
emitter panics otherwise, see C9) the emitter computes
`address_width = input_width glyph_count` with
`glyph_count = bitmap.length / glyph_byte_size`, emits one case line
per glyph (plus five fixed lines), and `input_width` is exactly the
ceiling base-2 logarithm: `n ≤ 2 ^ input_width n`, minimally so; exact
powers of two never allocate an extra bit (`input_width (2 ^ k) = k`),
and `input_width 256 = 8`, `input_width 1 = 0`, `input_width 257 = 9`. -/
theorem C1_address_width (psf : PSF) (h : psf.charsize ≠ 0)
    (h2 : psf.bitmap.length < 2 ^ 32) :
    ∃ lines, into_verilog psf = some lines ∧
      lines.length = psf.bitmap.length / psf.charsize + 5 ∧
      lines.getD 0 "" = moduleLine (input_width (psf.bitmap.length / psf.charsize))
        (psf.charsize * 8 % 2 ^ 32) ∧
      (∀ n : Nat, n ≠ 0 → n ≤ 2 ^ input_width n ∧ ∀ k, n ≤ 2 ^ k → input_width n ≤ k) ∧
      (∀ k, input_width (2 ^ k) = k) ∧
      input_width 256 = 8 ∧ input_width 1 = 0 ∧ input_width 257 = 9 := by
  have hmod : psf.bitmap.length % 2 ^ 32 = psf.bitmap.length := Nat.mod_eq_of_lt h2
  refine ⟨verilogLines psf, by rw [into_verilog, if_neg h], ?_, ?_, ?_, ?_, ?_, ?_, ?_⟩
  · show (verilogLines psf).length = _
    simp only [verilogLines, List.length_cons, List.length_append,
      List.length_map, List.length_range, List.length_nil]
    rw [hmod]
  · show moduleLine _ _ = _
    rw [hmod]
  · intro n hn
    rw [input_width_eq_clog n hn]
    exact ⟨Nat.le_pow_clog (by norm_num) n,
      fun k hk => (Nat.le_pow_iff_clog_le (by norm_num)).1 hk⟩
  · intro k
    rw [input_width_eq_clog _ (Nat.pos_pow_of_pos k (by norm_num)).ne']
    exact Nat.clog_pow 2 k (by norm_num)
  · rfl
  · rfl
  · rfl

theorem C1_witness :
    ∃ lines, into_verilog ⟨Version.PSF1, 1, 1, 8, [0x5A], none⟩ = some lines ∧
      lines.length = 6 ∧
      lines.getD 0 "" = moduleLine (input_width 1) 8 ∧
      (∀ n : Nat, n ≠ 0 → n ≤ 2 ^ input_width n ∧ ∀ k, n ≤ 2 ^ k → input_width n ≤ k) ∧
      (∀ k, input_width (2 ^ k) = k) ∧
      input_width 256 = 8 ∧ input_width 1 = 0 ∧ input_width 257 = 9 :=
  C1_address_width ⟨Version.PSF1, 1, 1, 8, [0x5A], none⟩ (by decide) (by decide)

set_option maxRecDepth 8192 in
/-- C2 (counterexample): a generation-one file whose mode byte is `0x04`
(`PSF1_MODEHASSEQ` set, `PSF1_MODEHASTAB` clear) followed by a
well-formed mapping-table byte region parses with `table = none`: the
source gates the trailing table on the `0x02` bit alone, so the claim
that the `0x04` bit also selects the table is false. -/
theorem C2_counterexample :
    try_from ([0x36, 0x04, 0x04, 0x01] ++ List.replicate 256 0 ++
        [0x41, 0x00, 0xFF, 0xFF]) =
      .ok ⟨.ok ⟨.PSF1, 1, 1, 8, List.replicate 256 0, none⟩, 260, false⟩ := by
  rfl

/-- C2 (amended): for every generation-one parse that succeeds, the
mapping table is present if and only if mode bit `0x02`
(`PSF1_MODEHASTAB`) is set; the `0x04` bit plays no role. -/
theorem C2_table_flag (data : List Nat) (run : ParseRun) (psf : PSF)
    (h : try_from data = .ok run) (hr : run.result = .ok psf)
    (hver : psf.version = .PSF1) :
    psf.table.isSome ↔ data.getD 2 0 &&& 0x02 ≠ 0 := by
  simp only [try_from] at h
  split at h
  · split at h
    · exact (parsePSF1_ok data run psf h hr).2.2
    · split at h
      · have hv2 := (parsePSF2_ok data run psf h hr).1
        rw [hver] at hv2
        exact absurd hv2 (by decide)
      · cases h
        exact absurd hr (by simp)
  · cases h
    exact absurd hr (by simp)

theorem C2_witness :
    (⟨Version.PSF1, 0, 0, 8, [], some [TableEntry.init]⟩ : PSF).table.isSome ↔
      (([0x36, 0x04, 0x02, 0x00, 0xFF, 0xFF] : List Nat).getD 2 0) &&& 0x02 ≠ 0 :=
  C2_table_flag [0x36, 0x04, 0x02, 0x00, 0xFF, 0xFF]
    ⟨.ok ⟨Version.PSF1, 0, 0, 8, [], some [TableEntry.init]⟩, 6, false⟩
    ⟨Version.PSF1, 0, 0, 8, [], some [TableEntry.init]⟩ rfl rfl rfl

/-- C3 (counterexample): a generation-two mapping-table region whose
pending buffer `[0x80]` (a lone UTF-8 continuation byte) reaches a
separator does not produce a recoverable decode-error outcome: the
source calls `unwrap` and the whole process panics, modelled by the
`PanicKind.utf8Unwrap` abort. No `TableDecodeFailure` outcome exists
anywhere in the source's error enum. -/
theorem C3_counterexample :
    parse_table [0x80, 0xFF] Version.PSF2 = .error .utf8Unwrap := rfl

/-- C3 (amended): a mapping-table buffer that is not valid text for the
active encoding makes `parse_table` panic (`unwrap`), aborting the
whole process, and the source's `ParseError` enum has no
`TableDecodeFailure` (or any table-related) variant at all. -/
theorem C3_decode_aborts (buf : List Nat) (hb : ∀ b ∈ buf, b < 0xFE)
    (hd : decodeUtf8 buf = none) :
    parse_table (buf ++ [0xFF]) Version.PSF2 = .error .utf8Unwrap ∧
    ∀ e : ParseError, e = .IoError ∨ e = .NotPSF ∨ e = .UnsupportedVersion := by
  constructor
  · show psf2Loop (buf ++ [0xFF]) [] false TableEntry.init [] = _
    rw [psf2Loop_append buf [0xFF] false TableEntry.init []
        (fun b hbm => by have := hb b hbm; omega) []]
    simp [psf2Loop, hd]
  · intro e
    cases e <;> simp

theorem C3_witness :
    parse_table ([0x80] ++ [0xFF]) Version.PSF2 = .error .utf8Unwrap ∧
    ∀ e : ParseError, e = .IoError ∨ e = .NotPSF ∨ e = .UnsupportedVersion :=
  C3_decode_aborts [0x80] (by decide) (by decide)

def c4data : List Nat :=
  [0x72, 0xb5, 0x4a, 0x86] ++
    [1, 0, 0, 0] ++ [32, 0, 0, 0] ++ [1, 0, 0, 0] ++ [0, 0, 0, 0] ++
    [0, 0, 0, 0] ++ [0, 0, 0, 0] ++ [0, 0, 0, 0] ++ [0x80, 0xFF]

/-- C4 (counterexample): a generation-two input with header version 1
and the table flag set whose table bytes are invalid UTF-8 does not
fail with `UnsupportedVersion`: `parse_table` panics (the `unwrap` on
`from_utf8`) before the version check is ever reached. -/
theorem C4_counterexample : try_from c4data = .error .utf8Unwrap := by
  rfl

/-- C4 (amended): for every generation-two input whose header version
field is positive, if `try_from` returns (no table-decode panic), the
outcome is either an I/O failure from a short read, or exactly the
`UnsupportedVersion` error — and in the latter case the error is
reported only after the full bitmap region was consumed and, when the
table flag is set, the stream was read to its end. -/
theorem C4_late_version_check (data : List Nat) (run : ParseRun)
    (hmagic : data.take 4 = [0x72, 0xb5, 0x4a, 0x86])
    (h : try_from data = .ok run) (hv : 0 < u32leAt data 4) :
    run.result = .error .IoError ∨
      (run.result = .error .UnsupportedVersion ∧
       psf2SkipPos (u32leAt data 8) +
         u32leAt data 20 * u32leAt data 16 % 2 ^ 32 ≤ run.pos ∧
       (u32leAt data 12 &&& 0x01 ≠ 0 → data.length ≤ run.pos)) := by
  rw [try_from_psf2 data hmagic] at h
  by_cases h32 : 32 ≤ data.length
  · exact (parsePSF2_run data run h h32).2 hv
  · left
    simp only [parsePSF2, if_neg h32] at h
    cases h
    rfl

def c4data2 : List Nat :=
  [0x72, 0xb5, 0x4a, 0x86] ++
    [1, 0, 0, 0] ++ [32, 0, 0, 0] ++ [0, 0, 0, 0] ++ [1, 0, 0, 0] ++
    [1, 0, 0, 0] ++ [0, 0, 0, 0] ++ [0, 0, 0, 0] ++ [0xAB]

theorem C4_witness :
    (⟨.error .UnsupportedVersion, 33, false⟩ : ParseRun).result = .error .IoError ∨
      ((⟨.error .UnsupportedVersion, 33, false⟩ : ParseRun).result =
          .error .UnsupportedVersion ∧
       psf2SkipPos (u32leAt c4data2 8) +
         u32leAt c4data2 20 * u32leAt c4data2 16 % 2 ^ 32 ≤
           (⟨.error .UnsupportedVersion, 33, false⟩ : ParseRun).pos ∧
       (u32leAt c4data2 12 &&& 0x01 ≠ 0 → c4data2.length ≤
           (⟨.error .UnsupportedVersion, 33, false⟩ : ParseRun).pos)) :=
  C4_late_version_check c4data2 ⟨.error .UnsupportedVersion, 33, false⟩
    rfl rfl (by decide)

def c5data : List Nat :=
  [0x72, 0xb5, 0x4a, 0x86] ++
    [0, 0, 0, 0] ++ [32, 0, 0, 0] ++ [0, 0, 0, 0] ++ [0x56, 0x55, 0x55, 0x55] ++
    [3, 0, 0, 0] ++ [0, 0, 0, 0] ++ [0, 0, 0, 0] ++ [0xAA, 0xBB]

/-- C5 (counterexample): the generation-two glyph-count field
`0x55555556` times the glyph-byte-size field `3` wraps modulo `2 ^ 32`
to `2`, so this 34-byte input parses successfully into a font with
`charsize = 3` and a 2-byte bitmap — and
`glyph_byte_size * (bitmap.length / glyph_byte_size) ≠ bitmap.length`
on the resulting font, violating the claimed invariant. -/
theorem C5_counterexample :
    try_from c5data =
        .ok ⟨.ok ⟨Version.PSF2, 3, 0, 0, [0xAA, 0xBB], none⟩, 34, false⟩ ∧
      ¬((3 : Nat) * (([0xAA, 0xBB] : List Nat).length / 3) =
        ([0xAA, 0xBB] : List Nat).length) := by
  exact ⟨rfl, by decide⟩

/-- C5 (amended): for every successfully parsed font,
`glyph_byte_size * glyph_count = bitmap.length` (with
`glyph_count = bitmap.length / glyph_byte_size` as the emitter derives
it) — provided that, for a generation-two font, the `u32` product of
the header's glyph-byte-size and glyph-count fields does not overflow.
Generation one needs no proviso. -/
theorem C5_invariant (data : List Nat) (run : ParseRun) (psf : PSF)
    (h : try_from data = .ok run) (hr : run.result = .ok psf)
    (hnov : psf.version = .PSF2 → u32leAt data 20 * u32leAt data 16 < 2 ^ 32) :
    psf.charsize * (psf.bitmap.length / psf.charsize) = psf.bitmap.length := by
  have hdvd : psf.charsize ∣ psf.bitmap.length := by
    simp only [try_from] at h
    split at h
    · split at h
      · exact (parsePSF1_ok data run psf h hr).2.1
      · split at h
        · obtain ⟨hv, hcs, hbm, hlen2⟩ := parsePSF2_ok data run psf h hr
          rw [hcs, hlen2, Nat.mod_eq_of_lt (hnov hv)]
          exact dvd_mul_right _ _
        · cases h
          exact absurd hr (by simp)
    · cases h
      exact absurd hr (by simp)
  exact Nat.mul_div_cancel' hdvd

def c5data2 : List Nat :=
  [0x72, 0xb5, 0x4a, 0x86] ++
    [0, 0, 0, 0] ++ [32, 0, 0, 0] ++ [0, 0, 0, 0] ++ [2, 0, 0, 0] ++
    [1, 0, 0, 0] ++ [0, 0, 0, 0] ++ [0, 0, 0, 0] ++ [9, 8]

theorem C5_witness :
    (1 : Nat) * (([9, 8] : List Nat).length / 1) = ([9, 8] : List Nat).length :=
  C5_invariant c5data2 ⟨.ok ⟨Version.PSF2, 1, 0, 0, [9, 8], none⟩, 34, false⟩
    ⟨Version.PSF2, 1, 0, 0, [9, 8], none⟩ rfl rfl (fun _ => by decide)

/-- C6: the generation-one mapping-table round trips of the claim: the
16-bit little-endian units `[0x0041, 0xFFFF]` decode to the single
entry `{represented := ['A'], sequences := []}`, and
`[0x0041, 0xFFFE, 0x0301, 0xFFFF]` to the single entry
`{represented := ['A'], sequences := [U+0301]}` (combining acute). -/
theorem C6_psf1_roundtrip :
    parse_table [0x41, 0x00, 0xFF, 0xFF] Version.PSF1 = .ok [⟨[0x41], []⟩] ∧
    parse_table [0x41, 0x00, 0xFE, 0xFF, 0x01, 0x03, 0xFF, 0xFF] Version.PSF1 =
      .ok [⟨[0x41], [0x301]⟩] := ⟨rfl, rfl⟩

/-- C7: the generation-two mapping-table round trips of the claim:
bytes `[0x41, 0xFF]` decode to the single entry
`{represented := ['A'], sequences := []}`, two consecutive separators
`[0xFF, 0xFF]` decode to two entries that are both empty, and an empty
pending buffer decodes without error. -/
theorem C7_psf2_roundtrip :
    parse_table [0x41, 0xFF] Version.PSF2 = .ok [⟨[0x41], []⟩] ∧
    parse_table [0xFF, 0xFF] Version.PSF2 = .ok [⟨[], []⟩, ⟨[], []⟩] ∧
    decodeUtf8 [] = some [] := ⟨rfl, rfl, rfl⟩

/-- C8: for every generation-two parse, the warning flag is set exactly
when the header-total-size field is below 32, an undersized field does
not move the stream position (the bitmap is read from offset 32, i.e.
`psf2SkipPos` collapses to 32), and a field of at least 32 makes the
parser skip exactly `header_size - 32` bytes before the bitmap. -/
theorem C8_header_size (data : List Nat) (run : ParseRun)
    (h : try_from data = .ok run)
    (hmagic : data.take 4 = [0x72, 0xb5, 0x4a, 0x86]) (h32 : 32 ≤ data.length) :
    (run.warned = true ↔ u32leAt data 8 < 32) ∧
    (u32leAt data 8 < 32 → psf2SkipPos (u32leAt data 8) = 32) ∧
    (32 ≤ u32leAt data 8 →
      psf2SkipPos (u32leAt data 8) = 32 + (u32leAt data 8 - 32)) ∧
    ∀ psf, run.result = .ok psf →
      psf.bitmap = (data.drop (psf2SkipPos (u32leAt data 8))).take
        (u32leAt data 20 * u32leAt data 16 % 2 ^ 32) := by
  rw [try_from_psf2 data hmagic] at h
  refine ⟨?_, fun hlt => by rw [psf2SkipPos, if_neg (by omega)],
    fun hge => by rw [psf2SkipPos, if_pos hge],
    fun psf hr => (parsePSF2_ok data run psf h hr).2.2.1⟩
  rw [(parsePSF2_run data run h h32).1]
  exact decide_eq_true_iff

def c8data : List Nat :=
  [0x72, 0xb5, 0x4a, 0x86] ++
    [0, 0, 0, 0] ++ [30, 0, 0, 0] ++ [0, 0, 0, 0] ++ [1, 0, 0, 0] ++
    [1, 0, 0, 0] ++ [0, 0, 0, 0] ++ [0, 0, 0, 0] ++ [0x5A]

theorem C8_witness :
    ((⟨.ok ⟨Version.PSF2, 1, 0, 0, [0x5A], none⟩, 33, true⟩ : ParseRun).warned = true ↔
      u32leAt c8data 8 < 32) ∧
    (u32leAt c8data 8 < 32 → psf2SkipPos (u32leAt c8data 8) = 32) ∧
    (32 ≤ u32leAt c8data 8 →
      psf2SkipPos (u32leAt c8data 8) = 32 + (u32leAt c8data 8 - 32)) ∧
    ∀ psf, (⟨.ok ⟨Version.PSF2, 1, 0, 0, [0x5A], none⟩, 33, true⟩ : ParseRun).result =
        .ok psf →
      psf.bitmap = (c8data.drop (psf2SkipPos (u32leAt c8data 8))).take
        (u32leAt c8data 20 * u32leAt c8data 16 % 2 ^ 32) :=
  C8_header_size c8data ⟨.ok ⟨Version.PSF2, 1, 0, 0, [0x5A], none⟩, 33, true⟩
    rfl rfl (by decide)

/-- C9: the emitter has no zero guard: a parsed font with
`glyph_byte_size = 0` makes `bitmap.len() / charsize` panic (division
by zero, modelled as `none`), and whenever the glyph count is at most 1
the `u8` subtraction `input_width - 1` wraps to 255, so the module
declaration carries a `[255:0]` character port instead of a 0-width
port (`moduleLine 0 8` shows the wrapped bound concretely). -/
theorem C9_emitter_edge :
    (∀ psf : PSF, psf.charsize = 0 → into_verilog psf = none) ∧
    (∀ psf : PSF, psf.charsize ≠ 0 → psf.bitmap.length % 2 ^ 32 / psf.charsize ≤ 1 →
      ∃ lines, into_verilog psf = some lines ∧
        lines.getD 0 "" = moduleLine 0 (psf.charsize * 8 % 2 ^ 32)) ∧
    moduleLine 0 8 = "module charactermap ( input wire clk, input wire [255:0] character, output reg [7:0] characterraster );" := by
  refine ⟨fun psf h => by simp [into_verilog, h], fun psf h hle => ?_, by rfl⟩
  refine ⟨verilogLines psf, by rw [into_verilog, if_neg h], ?_⟩
  have hiw : input_width (psf.bitmap.length % 2 ^ 32 / psf.charsize) = 0 := by
    have : psf.bitmap.length % 2 ^ 32 / psf.charsize = 0 ∨
        psf.bitmap.length % 2 ^ 32 / psf.charsize = 1 :=
      Nat.le_one_iff_eq_zero_or_eq_one.mp hle
    rcases this with h0 | h1
    · rw [h0]; rfl
    · rw [h1]; rfl
  show moduleLine _ _ = _
  rw [hiw]

theorem C9_witness :
    into_verilog ⟨Version.PSF2, 0, 0, 0, [], none⟩ = none ∧
    ∃ lines, into_verilog ⟨Version.PSF1, 1, 2, 8, [0xAB], none⟩ = some lines ∧
      lines.getD 0 "" = moduleLine 0 (1 * 8 % 2 ^ 32) :=
  ⟨C9_emitter_edge.1 ⟨Version.PSF2, 0, 0, 0, [], none⟩ rfl,
   C9_emitter_edge.2.1 ⟨Version.PSF1, 1, 2, 8, [0xAB], none⟩ (by decide) (by decide)⟩

/-- C10: every generation-one mapping-table byte region of odd length
makes `parse_table` abort with a panic (in particular the final
two-byte slice `table[i..=i + 1]` runs past the end of the region when
it is reached), never returning entries or any error value. -/
theorem C10_odd_table_panics (table : List Nat) (h : table.length % 2 = 1) :
    ∃ k, parse_table table Version.PSF1 = .error k :=
  psf1Loop_odd table.length table [] false TableEntry.init [] rfl h

theorem C10_witness :
    ([0x41] : List Nat).length % 2 = 1 ∧
      ∃ k, parse_table [0x41] Version.PSF1 = .error k :=
  ⟨rfl, C10_odd_table_panics [0x41] rfl⟩
